import Mathlib

/-!
Shallow embedding of the review service in `src/main.py`: the keyword
sentiment classifier (`predict`), the SQLite-backed review store
(`write_into_db`, `read_from_db`, the `lifespan` schema initialisation) and
the two API handlers (`add_review`, `get_reviews`), together with theorems
settling the specification claims about them.

Python strings are modelled as Lean `String`s (sequences of Unicode code
points); the Python membership test `item in text` is substring containment
of code-point sequences, modelled by `containsSub`.  The SQLite database is
modelled by an `Option Table` state: `none` when the `reviews` table does
not exist, `some t` when it does; `AUTOINCREMENT` row ids are modelled by
the table's `nextId` counter, and `ORDER BY created_at DESC` by an
insertion sort with respect to descending `created_at` (SQLite's BINARY
collation on valid UTF-8 text coincides with code-point lexicographic
order, which is Lean's `String` order).
-/

namespace UcarReviews

/-- `listStartsWith l p` : the code-point list `l` starts with `p`. -/
def listStartsWith : List Char → List Char → Bool
  | _, [] => true
  | [], _ :: _ => false
  | a :: as, b :: bs => a == b && listStartsWith as bs

/-- `containsSub needle hay` : `needle` occurs contiguously inside `hay`;
this is the Python expression `needle in hay` on strings. -/
def containsSub (needle : List Char) : List Char → Bool
  | [] => needle.isEmpty
  | c :: rest => listStartsWith (c :: rest) needle || containsSub needle rest

/-- The Python test `needle in text` for strings. -/
def occursIn (needle text : String) : Bool :=
  containsSub needle.toList text.toList

/-- `needle` occurs as a literal, case-sensitive substring of `text`. -/
def OccursIn (needle text : String) : Prop :=
  ∃ p q, text.toList = p ++ needle.toList ++ q

theorem listStartsWith_iff (p l : List Char) :
    listStartsWith l p = true ↔ ∃ t, l = p ++ t := by
  induction p generalizing l with
  | nil =>
    cases l with
    | nil => simp [listStartsWith]
    | cons a as => simp [listStartsWith]
  | cons b bs ih =>
    cases l with
    | nil => simp [listStartsWith]
    | cons a as =>
      simp only [listStartsWith, Bool.and_eq_true, beq_iff_eq, ih as,
        List.cons_append, List.cons.injEq]
      constructor
      · rintro ⟨rfl, t, rfl⟩
        exact ⟨t, rfl, rfl⟩
      · rintro ⟨t, rfl, rfl⟩
        exact ⟨rfl, t, rfl⟩

theorem containsSub_iff (needle hay : List Char) :
    containsSub needle hay = true ↔ ∃ p q, hay = p ++ needle ++ q := by
  induction hay with
  | nil =>
    simp only [containsSub, List.isEmpty_iff]
    constructor
    · rintro rfl
      exact ⟨[], [], rfl⟩
    · rintro ⟨p, q, h⟩
      rcases List.append_eq_nil.mp h.symm with ⟨h1, h2⟩
      exact (List.append_eq_nil.mp h1).2
  | cons c rest ih =>
    simp only [containsSub, Bool.or_eq_true, listStartsWith_iff, ih]
    constructor
    · rintro (⟨t, ht⟩ | ⟨p, q, h⟩)
      · exact ⟨[], t, by simpa using ht⟩
      · exact ⟨c :: p, q, by simp [h]⟩
    · rintro ⟨p, q, h⟩
      cases p with
      | nil => exact Or.inl ⟨q, by simpa using h⟩
      | cons x xs =>
        rw [List.cons_append, List.cons_append, List.cons.injEq] at h
        exact Or.inr ⟨xs, q, h.2⟩

theorem occursIn_iff (needle text : String) :
    occursIn needle text = true ↔ OccursIn needle text :=
  containsSub_iff needle.toList text.toList

instance (needle text : String) : Decidable (OccursIn needle text) :=
  decidable_of_iff (occursIn needle text = true) (occursIn_iff needle text)

/-! ### The classifier (`SENTIMENT_CLASSIFIER`, `predict`) -/

/-- The positive keyword list of `SENTIMENT_CLASSIFIER` (src/main.py line 13). -/
def positiveKeywords : List String := ["люблю", "хорошо", "отлично"]

/-- The negative keyword list of `SENTIMENT_CLASSIFIER` (src/main.py line 14). -/
def negativeKeywords : List String := ["плохо", "ужасно", "отвратительно"]

/-- `SENTIMENT_CLASSIFIER` as the ordered association list the Python dict
iterates over (insertion order: positive before negative). -/
def SENTIMENT_CLASSIFIER : List (String × List String) :=
  [("positive", positiveKeywords), ("negative", negativeKeywords)]

/-- The nested loop of `predict`: for each category in order, for each
keyword in order, return the category key on the first keyword occurring in
`text`; return "neutral" when the configuration is exhausted. -/
def predictFrom (text : String) : List (String × List String) → String
  | [] => "neutral"
  | (key, kws) :: rest =>
    if kws.any (fun item => occursIn item text) then key else predictFrom text rest

/-- `predict` from src/main.py lines 27-43. -/
def predict (text : String) : String :=
  predictFrom text SENTIMENT_CLASSIFIER

/-- Some keyword of `kws` occurs as a substring of `text`. -/
def HasKeyword (kws : List String) (text : String) : Prop :=
  ∃ kw ∈ kws, OccursIn kw text

instance (kws : List String) (text : String) : Decidable (HasKeyword kws text) :=
  List.decidableBEx _ kws

theorem any_occursIn_iff (kws : List String) (text : String) :
    (kws.any fun item => occursIn item text) = true ↔ HasKeyword kws text := by
  simp only [List.any_eq_true, occursIn_iff, HasKeyword]

/-- Shared characterisation of `predict`: the first-match-wins scan over the
two configured categories. -/
theorem predict_eq (text : String) :
    predict text =
      (if HasKeyword positiveKeywords text then "positive"
       else if HasKeyword negativeKeywords text then "negative" else "neutral") := by
  by_cases hp : HasKeyword positiveKeywords text
  · have h1 : (positiveKeywords.any fun item => occursIn item text) = true :=
      (any_occursIn_iff _ _).mpr hp
    simp [predict, SENTIMENT_CLASSIFIER, predictFrom, h1, hp]
  · have h1 : (positiveKeywords.any fun item => occursIn item text) = false := by
      rw [← Bool.not_eq_true]
      exact fun h => hp ((any_occursIn_iff _ _).mp h)
    by_cases hn : HasKeyword negativeKeywords text
    · have h2 : (negativeKeywords.any fun item => occursIn item text) = true :=
        (any_occursIn_iff _ _).mpr hn
      simp [predict, SENTIMENT_CLASSIFIER, predictFrom, h1, h2, hp, hn]
    · have h2 : (negativeKeywords.any fun item => occursIn item text) = false := by
        rw [← Bool.not_eq_true]
        exact fun h => hn ((any_occursIn_iff _ _).mp h)
      simp [predict, SENTIMENT_CLASSIFIER, predictFrom, h1, h2, hp, hn]

/-- C1: `classify` (= `predict`) is total and deterministic, returns only
the labels "positive", "negative" or "neutral", and returns "positive"
exactly when some positive keyword is a literal case-sensitive substring of
`text`, otherwise "negative" when some negative keyword is, otherwise
"neutral". -/
theorem predict_classifies (text : String) :
    (predict text = "positive" ∨ predict text = "negative" ∨ predict text = "neutral") ∧
    predict text =
      (if HasKeyword positiveKeywords text then "positive"
       else if HasKeyword negativeKeywords text then "negative" else "neutral") := by
  refine ⟨?_, predict_eq text⟩
  rw [predict_eq text]
  by_cases hp : HasKeyword positiveKeywords text
  · simp [hp]
  · by_cases hn : HasKeyword negativeKeywords text
    · simp [hp, hn]
    · simp [hp, hn]

/-- C2: a text containing both a positive and a negative keyword is labelled
"positive" (category scan order positive-before-negative), regardless of the
positions of the keywords in the text. -/
theorem predict_positive_wins (text : String)
    (hp : HasKeyword positiveKeywords text)
    (hn : HasKeyword negativeKeywords text) :
    predict text = "positive" := by
  rw [predict_eq text, if_pos hp]

/-- Witness for C2 at the concrete text "плохо, но хорошо", which contains
the negative keyword "плохо" before the positive keyword "хорошо". -/
theorem predict_positive_wins_witness :
    HasKeyword positiveKeywords "плохо, но хорошо" ∧
    HasKeyword negativeKeywords "плохо, но хорошо" ∧
    predict "плохо, но хорошо" = "positive" :=
  ⟨by decide, by decide,
    predict_positive_wins "плохо, но хорошо" (by decide) (by decide)⟩

/-! ### Data model and request validation -/

/-- A JSON value, as far as the `text` field's shape matters. -/
inductive Json where
  | str (s : String)
  | num (n : Int)
  | jsonBool (b : Bool)
  | null
  deriving DecidableEq

/-- `ReviewRequest` (src/main.py lines 18-19): body with a required `text`
field of string type. -/
structure ReviewRequest where
  text : String
  deriving DecidableEq

/-- `ReviewResponse` (src/main.py lines 21-24) and at the same time one row
of the `reviews` table. -/
structure ReviewResponse where
  id : Nat
  text : String
  sentiment : String
  created_at : String
  deriving DecidableEq

/-- Pydantic validation of the request body against `ReviewRequest`: the
`text` key must be present and hold a string (any string; no length
constraint is declared).  Any other shape is a 422 validation error. -/
def validateReviewRequest (body : List (String × Json)) : Except String ReviewRequest :=
  match body.lookup "text" with
  | some (Json.str s) => Except.ok ⟨s⟩
  | some _ => Except.error "Input should be a valid string"
  | none => Except.error "Field required"

/-! ### The store -/

/-- The `reviews` table: its rows in insertion order, and the next
`AUTOINCREMENT` id. -/
structure Table where
  rows : List ReviewResponse
  nextId : Nat
  deriving DecidableEq

/-- The SQLite database state: `none` while the `reviews` table does not
exist, `some t` once it does. -/
abbrev DbState := Option Table

/-- The `CREATE TABLE IF NOT EXISTS reviews (...)` statement run by
`lifespan` (src/main.py lines 133-147): creates an empty table when absent,
leaves an existing table untouched. -/
def initSchema : DbState → DbState
  | none => some ⟨[], 1⟩
  | some t => some t

/-- A store operation failure (e.g. `INSERT`/`SELECT` against a missing
table raises `sqlite3.OperationalError`). -/
inductive StoreError where
  | noTable
  deriving DecidableEq

/-- `write_into_db` (src/main.py lines 61-87): captures one timestamp (here
the parameter `created_at`), inserts `(data.text, label, created_at)` into
`reviews`, reads back `cur.lastrowid`, and returns a `ReviewResponse` built
from the same id, text, label and timestamp. -/
def write_into_db (data : ReviewRequest) (label : String) (created_at : String)
    (db : DbState) : Except StoreError (ReviewResponse × DbState) :=
  match db with
  | none => Except.error StoreError.noTable
  | some t =>
    let review_id := t.nextId
    let row : ReviewResponse := ⟨review_id, data.text, label, created_at⟩
    Except.ok (row, some ⟨t.rows ++ [row], review_id + 1⟩)

/-- Strict lexicographic order on code-point lists; on valid UTF-8 text
this coincides with SQLite's BINARY collation used by
`ORDER BY created_at`. -/
def lexLtb : List Char → List Char → Bool
  | [], [] => false
  | [], _ :: _ => true
  | _ :: _, [] => false
  | a :: as, b :: bs => if a = b then lexLtb as bs else decide (a < b)

theorem lexLtb_trans {x y z : List Char} (hxy : lexLtb x y = true)
    (hyz : lexLtb y z = true) : lexLtb x z = true := by
  induction x generalizing y z with
  | nil =>
    cases y with
    | nil => simp [lexLtb] at hxy
    | cons b bs =>
      cases z with
      | nil => simp [lexLtb] at hyz
      | cons c cs => simp [lexLtb]
  | cons a as ih =>
    cases y with
    | nil => simp [lexLtb] at hxy
    | cons b bs =>
      cases z with
      | nil => simp [lexLtb] at hyz
      | cons c cs =>
        simp only [lexLtb] at hxy hyz ⊢
        by_cases hab : a = b
        · subst hab
          by_cases hbc : a = c
          · subst hbc
            rw [if_pos rfl] at hxy hyz ⊢
            exact ih hxy hyz
          · rw [if_pos rfl] at hxy
            rw [if_neg hbc] at hyz ⊢
            exact hyz
        · by_cases hbc : b = c
          · subst hbc
            rw [if_neg hab] at hxy ⊢
            exact hxy
          · rw [if_neg hab] at hxy
            rw [if_neg hbc] at hyz
            have h1 : a < b := of_decide_eq_true hxy
            have h2 : b < c := of_decide_eq_true hyz
            have hac : a ≠ c := ne_of_lt (lt_trans h1 h2)
            rw [if_neg hac]
            exact decide_eq_true (lt_trans h1 h2)

theorem lexLtb_false_iff (x y : List Char) :
    lexLtb x y = false ↔ (lexLtb y x = true ∨ x = y) := by
  induction x generalizing y with
  | nil =>
    cases y with
    | nil => simp [lexLtb]
    | cons b bs => simp [lexLtb]
  | cons a as ih =>
    cases y with
    | nil => simp [lexLtb]
    | cons b bs =>
      simp only [lexLtb]
      by_cases hab : a = b
      · subst hab
        rw [if_pos rfl, if_pos rfl, ih bs]
        simp
      · rw [if_neg hab, if_neg (Ne.symm hab)]
        rcases lt_or_gt_of_ne hab with h | h
        · simp [decide_eq_true h, not_lt_of_gt h, hab]
        · simp [decide_eq_true h, not_lt_of_gt h, hab]

/-- Rows ordered most-recent-first: `laterFirst a b` holds when `a` may come
before `b` in a `created_at`-descending listing, i.e. when `a.created_at` is
not strictly below `b.created_at`. -/
def laterFirst (a b : ReviewResponse) : Prop :=
  lexLtb a.created_at.toList b.created_at.toList = false

instance : DecidableRel laterFirst :=
  fun a b =>
    inferInstanceAs (Decidable (lexLtb a.created_at.toList b.created_at.toList = false))

/-- `a` was created strictly before `b` (its `created_at` is strictly below
in the collation order the store sorts by). -/
def createdBefore (a b : ReviewResponse) : Prop :=
  lexLtb a.created_at.toList b.created_at.toList = true

instance : DecidableRel createdBefore :=
  fun a b =>
    inferInstanceAs (Decidable (lexLtb a.created_at.toList b.created_at.toList = true))

instance : IsTotal ReviewResponse laterFirst := by
  constructor
  intro a b
  unfold laterFirst
  by_cases h : lexLtb a.created_at.toList b.created_at.toList = false
  · exact Or.inl h
  · refine Or.inr ((lexLtb_false_iff _ _).mpr (Or.inl ?_))
    exact Bool.of_not_eq_false h

instance : IsTrans ReviewResponse laterFirst := by
  constructor
  intro a b c hab hbc
  unfold laterFirst at *
  rcases (lexLtb_false_iff _ _).mp hab with h1 | h1
  · rcases (lexLtb_false_iff _ _).mp hbc with h2 | h2
    · exact (lexLtb_false_iff _ _).mpr (Or.inl (lexLtb_trans h2 h1))
    · exact (lexLtb_false_iff _ _).mpr (Or.inl (h2 ▸ h1))
  · rcases (lexLtb_false_iff _ _).mp hbc with h2 | h2
    · exact (lexLtb_false_iff _ _).mpr (Or.inl (h1 ▸ h2))
    · exact (lexLtb_false_iff _ _).mpr (Or.inr (h1.trans h2))

/-- `ORDER BY created_at DESC` on the selected rows. -/
def sortByCreatedDesc (rows : List ReviewResponse) : List ReviewResponse :=
  rows.insertionSort laterFirst

/-- `read_from_db` (src/main.py lines 90-130): `SELECT ... ORDER BY
created_at DESC`, with `WHERE sentiment = ?` exactly when `filter_label` is
truthy (neither `None` nor the empty string). -/
def read_from_db (filter_label : Option String) (db : DbState) :
    Except StoreError (List ReviewResponse) :=
  match db with
  | none => Except.error StoreError.noTable
  | some t =>
    let selected :=
      match filter_label with
      | some s => if s = "" then t.rows else t.rows.filter (fun r => r.sentiment == s)
      | none => t.rows
    Except.ok (sortByCreatedDesc selected)

/-! ### The API layer -/

/-- An HTTP error response: status code and detail message. -/
structure ApiError where
  status : Nat
  detail : String
  deriving DecidableEq

/-- `add_review` (src/main.py lines 153-173), with FastAPI's request-body
validation in front: on a validation failure the handler body never runs
(422 client error, database untouched); otherwise `predict` labels the text
and `write_into_db` persists it.  `now` is the timestamp `datetime.now`
yields at the single call site inside `write_into_db`; a store failure
surfaces as an unhandled 500. -/
def add_review (body : List (String × Json)) (now : String) (db : DbState) :
    Except ApiError ReviewResponse × DbState :=
  match validateReviewRequest body with
  | Except.error _ => (Except.error ⟨422, "Unprocessable Entity"⟩, db)
  | Except.ok data =>
    match write_into_db data (predict data.text) now db with
    | Except.error _ => (Except.error ⟨500, "Internal Server Error"⟩, db)
    | Except.ok (resp, db2) => (Except.ok resp, db2)

/-- The values the `sentiment` query parameter may take:
`["positive", "negative", "neutral", None]` (src/main.py line 197). -/
def acceptedFilters : List (Option String) :=
  [some "positive", some "negative", some "neutral", none]

/-- Python `f"... {sentiment} ..."` applied to `Optional[str]`. -/
def pyShow : Option String → String
  | none => "None"
  | some s => s

/-- `get_reviews` (src/main.py lines 176-202): reject a `sentiment` outside
the accepted set with a 400 before touching the store; otherwise read, and
turn an empty result into a 404. -/
def get_reviews (sentiment : Option String) (db : DbState) :
    Except ApiError (List ReviewResponse) :=
  if sentiment ∈ acceptedFilters then
    match read_from_db sentiment db with
    | Except.error _ => Except.error ⟨500, "Internal Server Error"⟩
    | Except.ok result =>
      if result.isEmpty then
        Except.error ⟨404, "No data for key " ++ pyShow sentiment ++ "!"⟩
      else
        Except.ok result
  else
    Except.error
      ⟨400, "Accepted keywords are: positive, negative or neutral. Got " ++
        pyShow sentiment ++ "."⟩

/-! ### Helper lemmas -/

theorem toList_append (a b : String) : (a ++ b).toList = a.toList ++ b.toList :=
  String.data_append a b

theorem OccursIn.append_right {n a : String} (b : String) (h : OccursIn n a) :
    OccursIn n (a ++ b) := by
  obtain ⟨p, q, hp⟩ := h
  exact ⟨p, q ++ b.toList, by rw [toList_append, hp]; simp⟩

theorem OccursIn.append_left {n b : String} (a : String) (h : OccursIn n b) :
    OccursIn n (a ++ b) := by
  obtain ⟨p, q, hp⟩ := h
  exact ⟨a.toList ++ p, q, by rw [toList_append, hp]; simp⟩

theorem predict_mem_labels (text : String) :
    predict text ∈ (["positive", "negative", "neutral"] : List String) := by
  rw [predict_eq text]
  by_cases hp : HasKeyword positiveKeywords text
  · simp [hp]
  · by_cases hn : HasKeyword negativeKeywords text <;> simp [hp, hn]

/-! ### Claim C3 -/

/-- C3 counterexample: a body whose `text` is the empty string passes
validation and the submit succeeds, creating a review — the claim requires
it to be rejected with a client error. -/
theorem empty_text_submit_accepted :
    validateReviewRequest [("text", Json.str "")] = Except.ok ⟨""⟩ ∧
    (add_review [("text", Json.str "")] "2025-01-01T00:00:00+00:00" (some ⟨[], 1⟩)).1 =
      Except.ok ⟨1, "", "neutral", "2025-01-01T00:00:00+00:00"⟩ :=
  ⟨rfl, rfl⟩

/-- C3 (amended): a submit whose body has no string-valued `text` field
(absent key or wrong shape) is rejected with a 422 client error and no
review is created (the store is unchanged, so the classifier and store
never ran); a body whose `text` is any string — the empty string included —
passes validation, and with the table present the submit succeeds. -/
theorem add_review_shape_validation (body : List (String × Json)) (now : String) (t : Table) :
    ((∀ s, body.lookup "text" ≠ some (Json.str s)) →
      add_review body now (some t) = (Except.error ⟨422, "Unprocessable Entity"⟩, some t)) ∧
    (∀ s, body.lookup "text" = some (Json.str s) →
      ∃ resp db2, add_review body now (some t) = (Except.ok resp, db2) ∧ resp.text = s) := by
  constructor
  · intro h
    unfold add_review validateReviewRequest
    cases hb : body.lookup "text" with
    | none => rfl
    | some j =>
      cases j with
      | str s => exact absurd hb (h s)
      | num n => rfl
      | jsonBool b => rfl
      | null => rfl
  · intro s hs
    unfold add_review validateReviewRequest
    rw [hs]
    exact ⟨_, _, rfl, rfl⟩

/-- Witness for C3 (amended): a body with no `text` key is rejected and the
store is unchanged; a body with `text` present is accepted verbatim. -/
theorem add_review_shape_validation_witness :
    add_review [("note", Json.str "ok")] "T0" (some ⟨[], 1⟩) =
      (Except.error ⟨422, "Unprocessable Entity"⟩, some ⟨[], 1⟩) ∧
    ∃ resp db2, add_review [("text", Json.str "норм")] "T0" (some ⟨[], 1⟩) =
      (Except.ok resp, db2) ∧ resp.text = "норм" :=
  ⟨(add_review_shape_validation [("note", Json.str "ok")] "T0" ⟨[], 1⟩).1
      (by intro s h; simp [List.lookup] at h),
   (add_review_shape_validation [("text", Json.str "норм")] "T0" ⟨[], 1⟩).2 "норм" rfl⟩

/-! ### Claim C4 -/

/-- Every row of the (existing) table carries a sentiment from the closed
label set. -/
def ValidSentiments : DbState → Prop
  | none => True
  | some t => ∀ r ∈ t.rows, r.sentiment ∈ (["positive", "negative", "neutral"] : List String)

instance : (db : DbState) → Decidable (ValidSentiments db)
  | none => isTrue trivial
  | some t => List.decidableBAll _ t.rows

/-- C4 counterexample: submitting the empty string persists a review whose
`text` is empty — the claim's non-empty-text invariant fails on a reachable
store state. -/
theorem persisted_empty_text :
    ∃ t, (add_review [("text", Json.str "")] "2025-01-01T00:00:00+00:00" (some ⟨[], 1⟩)).2 =
        some t ∧ ∃ r ∈ t.rows, r.text = "" :=
  ⟨⟨[⟨1, "", "neutral", "2025-01-01T00:00:00+00:00"⟩], 2⟩, rfl,
    ⟨1, "", "neutral", "2025-01-01T00:00:00+00:00"⟩, by simp, rfl⟩

/-- C4 (amended): every persisted review has a `sentiment` drawn from the
closed set {"positive", "negative", "neutral"}, and this invariant is
preserved by schema initialisation and by every submit (reads are pure
functions of the state and modify nothing); the non-empty-text part of the
original claim does not hold. -/
theorem sentiment_invariant (db : DbState) (body : List (String × Json)) (now : String)
    (h : ValidSentiments db) :
    ValidSentiments (initSchema db) ∧ ValidSentiments (add_review body now db).2 := by
  constructor
  · cases db with
    | none =>
      intro r hr
      simp at hr
    | some t0 => exact h
  · unfold add_review
    cases hv : validateReviewRequest body with
    | error e => exact h
    | ok data =>
      cases db with
      | none => exact h
      | some t0 =>
        intro r hr
        simp only [write_into_db, Table.rows] at hr
        rcases List.mem_append.mp hr with hr0 | hr1
        · exact h r hr0
        · rw [List.mem_singleton.mp hr1]
          exact predict_mem_labels data.text

/-- Witness for C4 (amended) on a concrete valid store and a concrete
submit. -/
theorem sentiment_invariant_witness :
    ValidSentiments (initSchema (some ⟨[⟨1, "плохо", "negative", "T1"⟩], 2⟩)) ∧
    ValidSentiments
      (add_review [("text", Json.str "всё хорошо")] "T2"
        (some ⟨[⟨1, "плохо", "negative", "T1"⟩], 2⟩)).2 :=
  sentiment_invariant (some ⟨[⟨1, "плохо", "negative", "T1"⟩], 2⟩)
    [("text", Json.str "всё хорошо")] "T2" (by decide)

/-! ### Claim C5 -/

/-- C5: a `sentiment` filter outside the accepted set is rejected with a
400 whose message contains all three accepted labels and the offending
value; the response does not depend on the database state, so the store is
never read. -/
theorem get_reviews_invalid_filter (s : String)
    (hs : s ∉ (["positive", "negative", "neutral"] : List String)) (db : DbState) :
    get_reviews (some s) db =
      Except.error
        ⟨400, "Accepted keywords are: positive, negative or neutral. Got " ++ s ++ "."⟩ ∧
    OccursIn "positive" ("Accepted keywords are: positive, negative or neutral. Got " ++ s ++ ".") ∧
    OccursIn "negative" ("Accepted keywords are: positive, negative or neutral. Got " ++ s ++ ".") ∧
    OccursIn "neutral" ("Accepted keywords are: positive, negative or neutral. Got " ++ s ++ ".") ∧
    OccursIn s ("Accepted keywords are: positive, negative or neutral. Got " ++ s ++ ".") := by
  have hv : (some s) ∉ acceptedFilters := by
    simp only [acceptedFilters, List.mem_cons, List.mem_singleton] at *
    intro hc
    rcases hc with h1 | h1 | h1 | h1 <;> simp_all
  refine ⟨?_, ?_, ?_, ?_, ?_⟩
  · unfold get_reviews
    rw [if_neg hv]
    rfl
  · exact OccursIn.append_right _
      (OccursIn.append_right _ (by decide : OccursIn "positive"
        "Accepted keywords are: positive, negative or neutral. Got "))
  · exact OccursIn.append_right _
      (OccursIn.append_right _ (by decide : OccursIn "negative"
        "Accepted keywords are: positive, negative or neutral. Got "))
  · exact OccursIn.append_right _
      (OccursIn.append_right _ (by decide : OccursIn "neutral"
        "Accepted keywords are: positive, negative or neutral. Got "))
  · exact OccursIn.append_right _
      (OccursIn.append_left _ ⟨[], [], by simp⟩)

/-- Witness for C5 at the offending value "mixed". -/
theorem get_reviews_invalid_filter_witness :
    get_reviews (some "mixed") none =
      Except.error
        ⟨400, "Accepted keywords are: positive, negative or neutral. Got " ++ "mixed" ++ "."⟩ ∧
    OccursIn "positive" ("Accepted keywords are: positive, negative or neutral. Got " ++ "mixed" ++ ".") ∧
    OccursIn "negative" ("Accepted keywords are: positive, negative or neutral. Got " ++ "mixed" ++ ".") ∧
    OccursIn "neutral" ("Accepted keywords are: positive, negative or neutral. Got " ++ "mixed" ++ ".") ∧
    OccursIn "mixed" ("Accepted keywords are: positive, negative or neutral. Got " ++ "mixed" ++ ".") :=
  get_reviews_invalid_filter "mixed" (by decide) none

/-! ### Claim C6 -/

/-- C6: a list request whose filter passes validation but whose result set
is empty — because of the filter or because the store is empty — yields a
404 not-found error whose message names the filter key, not a successful
empty collection. -/
theorem get_reviews_empty_result (sentiment : Option String) (t : Table)
    (hv : sentiment ∈ acceptedFilters)
    (he : read_from_db sentiment (some t) = Except.ok []) :
    get_reviews sentiment (some t) =
      Except.error ⟨404, "No data for key " ++ pyShow sentiment ++ "!"⟩ ∧
    OccursIn (pyShow sentiment) ("No data for key " ++ pyShow sentiment ++ "!") := by
  constructor
  · unfold get_reviews
    rw [if_pos hv, he]
    rfl
  · exact OccursIn.append_right _ (OccursIn.append_left _ ⟨[], [], by simp⟩)

/-- Witness for C6: filtering an empty store by "neutral" yields the 404. -/
theorem get_reviews_empty_result_witness :
    get_reviews (some "neutral") (some ⟨[], 5⟩) =
      Except.error ⟨404, "No data for key " ++ pyShow (some "neutral") ++ "!"⟩ ∧
    OccursIn (pyShow (some "neutral")) ("No data for key " ++ pyShow (some "neutral") ++ "!") :=
  get_reviews_empty_result (some "neutral") ⟨[], 5⟩ (by decide) rfl

/-! ### Claims C7 and C8 -/

/-- On an existing table, a read always succeeds and returns a
`created_at`-descending sort of some selection of rows. -/
theorem read_from_db_some (s : Option String) (t : Table) :
    ∃ sel, read_from_db s (some t) = Except.ok (sortByCreatedDesc sel) :=
  ⟨_, rfl⟩

/-- C7: with a filter label present (a label from the closed set, the type
the store contract gives the argument), `read_from_db` returns exactly the
persisted rows whose `sentiment` equals the label — a permutation of the
filtered row list, so none is omitted, none is added, and no row with a
different label appears; with the filter absent it returns all rows. -/
theorem read_from_db_filter (t : Table) :
    (∀ lbl ∈ (["positive", "negative", "neutral"] : List String),
      ∃ out, read_from_db (some lbl) (some t) = Except.ok out ∧
        out.Perm (t.rows.filter (fun r => r.sentiment == lbl)) ∧
        (∀ r, r ∈ out ↔ r ∈ t.rows ∧ r.sentiment = lbl)) ∧
    (∃ out, read_from_db none (some t) = Except.ok out ∧ out.Perm t.rows ∧
      (∀ r, r ∈ out ↔ r ∈ t.rows)) := by
  constructor
  · intro lbl hl
    have hne : ¬ (lbl = "") := by
      simp only [List.mem_cons, List.mem_singleton, List.not_mem_nil, or_false] at hl
      rcases hl with rfl | rfl | rfl <;> decide
    refine ⟨sortByCreatedDesc (t.rows.filter (fun r => r.sentiment == lbl)), ?_, ?_, ?_⟩
    · simp [read_from_db, hne]
    · exact List.perm_insertionSort laterFirst _
    · intro r
      rw [sortByCreatedDesc, List.mem_insertionSort, List.mem_filter, beq_iff_eq]
  · refine ⟨sortByCreatedDesc t.rows, rfl, List.perm_insertionSort laterFirst _, ?_⟩
    intro r
    rw [sortByCreatedDesc, List.mem_insertionSort]

/-- Witness for C7 on a two-row store filtered by "negative". -/
theorem read_from_db_filter_witness :
    ∃ out, read_from_db (some "negative")
        (some ⟨[⟨1, "хорошо", "positive", "T1"⟩, ⟨2, "плохо", "negative", "T2"⟩], 3⟩) =
      Except.ok out ∧
      out.Perm (([⟨1, "хорошо", "positive", "T1"⟩, ⟨2, "плохо", "negative", "T2"⟩] :
          List ReviewResponse).filter (fun r => r.sentiment == "negative")) ∧
      (∀ r, r ∈ out ↔
        r ∈ ([⟨1, "хорошо", "positive", "T1"⟩, ⟨2, "плохо", "negative", "T2"⟩] :
          List ReviewResponse) ∧ r.sentiment = "negative") :=
  (read_from_db_filter
      ⟨[⟨1, "хорошо", "positive", "T1"⟩, ⟨2, "плохо", "negative", "T2"⟩], 3⟩).1
    "negative" (by decide)

/-- C8: every successful GET /reviews response is sorted by `created_at`
descending (`laterFirst` holds along the list: each row's `created_at` is
not below the next one's), and in particular three rows inserted at
strictly increasing times come back most recent first: `[r3, r2, r1]`. -/
theorem query_ordered_desc :
    (∀ (sentiment : Option String) (t : Table) (out : List ReviewResponse),
      get_reviews sentiment (some t) = Except.ok out → out.Sorted laterFirst) ∧
    (∀ (r1 r2 r3 : ReviewResponse) (n : Nat),
      createdBefore r1 r2 → createdBefore r2 r3 →
      read_from_db none (some ⟨[r1, r2, r3], n⟩) = Except.ok [r3, r2, r1]) := by
  constructor
  · intro sentiment t out h
    unfold get_reviews at h
    by_cases hv : sentiment ∈ acceptedFilters
    · rw [if_pos hv] at h
      obtain ⟨sel, hs⟩ := read_from_db_some sentiment t
      rw [hs] at h
      by_cases he : (sortByCreatedDesc sel).isEmpty
      · simp [he] at h
      · simp only [he, Bool.false_eq_true, if_false, Except.ok.injEq] at h
        rw [← h]
        exact List.sorted_insertionSort laterFirst sel
    · rw [if_neg hv] at h
      simp at h
  · intro r1 r2 r3 n h12 h23
    have h13 : lexLtb r1.created_at.toList r3.created_at.toList = true :=
      lexLtb_trans h12 h23
    unfold createdBefore at h12 h23
    have h12d : lexLtb r1.created_at.data r2.created_at.data = true := h12
    have h23d : lexLtb r2.created_at.data r3.created_at.data = true := h23
    have h13d : lexLtb r1.created_at.data r3.created_at.data = true := h13
    simp [read_from_db, sortByCreatedDesc, laterFirst, h12, h23, h13, h12d, h23d, h13d]

/-- Witness for C8 on three concrete rows with increasing timestamps. -/
theorem query_ordered_desc_witness :
    ([⟨3, "c", "neutral", "2025-01-03"⟩, ⟨2, "b", "neutral", "2025-01-02"⟩,
        ⟨1, "a", "neutral", "2025-01-01"⟩] : List ReviewResponse).Sorted laterFirst ∧
    read_from_db none
        (some ⟨[⟨1, "a", "neutral", "2025-01-01"⟩, ⟨2, "b", "neutral", "2025-01-02"⟩,
          ⟨3, "c", "neutral", "2025-01-03"⟩], 4⟩) =
      Except.ok [⟨3, "c", "neutral", "2025-01-03"⟩, ⟨2, "b", "neutral", "2025-01-02"⟩,
        ⟨1, "a", "neutral", "2025-01-01"⟩] :=
  ⟨query_ordered_desc.1 none
      ⟨[⟨1, "a", "neutral", "2025-01-01"⟩, ⟨2, "b", "neutral", "2025-01-02"⟩,
        ⟨3, "c", "neutral", "2025-01-03"⟩], 4⟩
      [⟨3, "c", "neutral", "2025-01-03"⟩, ⟨2, "b", "neutral", "2025-01-02"⟩,
        ⟨1, "a", "neutral", "2025-01-01"⟩] rfl,
   query_ordered_desc.2 ⟨1, "a", "neutral", "2025-01-01"⟩ ⟨2, "b", "neutral", "2025-01-02"⟩
      ⟨3, "c", "neutral", "2025-01-03"⟩ 4 (by decide) (by decide)⟩

/-! ### Claim C9 -/

/-- C9: schema initialisation is idempotent — running it twice equals
running it once, it never errors (it is a total function), and on a state
where the table already exists it is the identity, so the stored reviews
are untouched. -/
theorem initSchema_idempotent (db : DbState) :
    initSchema (initSchema db) = initSchema db ∧
    (∀ t, db = some t → initSchema db = db) := by
  constructor
  · cases db <;> rfl
  · intro t ht
    rw [ht]
    rfl

/-- Witness for C9 on a fresh state and on a one-row state. -/
theorem initSchema_idempotent_witness :
    initSchema (initSchema none) = initSchema none ∧
    initSchema (some ⟨[⟨1, "x", "neutral", "T1"⟩], 2⟩) =
      some ⟨[⟨1, "x", "neutral", "T1"⟩], 2⟩ :=
  ⟨(initSchema_idempotent none).1,
   (initSchema_idempotent (some ⟨[⟨1, "x", "neutral", "T1"⟩], 2⟩)).2 _ rfl⟩

/-! ### Claim C10 -/

/-- C10: a successful submit returns exactly the row it persisted: the new
store state is the old rows with the returned response appended, the
response's `id` is the store-assigned `nextId`, and its `created_at` is the
single captured timestamp used for both the insert and the response. -/
theorem add_review_returns_persisted (body : List (String × Json)) (now : String) (t : Table)
    (resp : ReviewResponse)
    (h : (add_review body now (some t)).1 = Except.ok resp) :
    (add_review body now (some t)).2 = some ⟨t.rows ++ [resp], t.nextId + 1⟩ ∧
    resp.id = t.nextId ∧ resp.created_at = now := by
  unfold add_review at h ⊢
  cases hv : validateReviewRequest body with
  | error e =>
    rw [hv] at h
    simp at h
  | ok data =>
    rw [hv] at h
    simp only [write_into_db, Except.ok.injEq] at h
    rw [← h]
    exact ⟨rfl, rfl, rfl⟩

/-- Witness for C10: submitting "отлично!" on an empty table persists and
returns the same row. -/
theorem add_review_returns_persisted_witness :
    (add_review [("text", Json.str "отлично!")] "2025-01-01T00:00:00+00:00"
        (some ⟨[], 1⟩)).2 =
      some ⟨[] ++ [⟨1, "отлично!", "positive", "2025-01-01T00:00:00+00:00"⟩], 1 + 1⟩ ∧
    (⟨1, "отлично!", "positive", "2025-01-01T00:00:00+00:00"⟩ : ReviewResponse).id = 1 ∧
    (⟨1, "отлично!", "positive", "2025-01-01T00:00:00+00:00"⟩ : ReviewResponse).created_at =
      "2025-01-01T00:00:00+00:00" :=
  add_review_returns_persisted [("text", Json.str "отлично!")] "2025-01-01T00:00:00+00:00"
    ⟨[], 1⟩ ⟨1, "отлично!", "positive", "2025-01-01T00:00:00+00:00"⟩ rfl

end UcarReviews
